import Mathlib

/-!
Shallow embedding of `scripts/validate_lite_configs.py`: a smoke checker that
validates the AgentBench lite preset configs.  YAML documents are modelled as
already-decoded values (`YVal`); the file system is modelled by a `FileContent`
per required file (missing, unparsable, or parsed).  The functions below follow
the Python source line by line; Python library functions used by the script
(`str`, `sorted`, `str.split`, `pathlib.Path(...).stem`, `dict.get`) are
modelled explicitly.
-/

namespace LiteValidate

/-- A decoded YAML value, as produced by `yaml.safe_load` (floats and other
scalar types the script never receives are out of scope). -/
inductive YVal where
  | ynull
  | ybool (b : Bool)
  | yint (n : Int)
  | ystr (s : String)
  | ylist (xs : List YVal)
  | ydict (kvs : List (YVal × YVal))

/-- Single-quote character, written via its code point. -/
def sq : String := String.singleton (Char.ofNat 39)

/-- Python type name of a decoded value, as it appears in error messages. -/
def tyName : YVal → String
  | .ynull => "NoneType"
  | .ybool _ => "bool"
  | .yint _ => "int"
  | .ystr _ => "str"
  | .ylist _ => "list"
  | .ydict _ => "dict"

/-- Rendering of `type(v)` inside a Python f-string: `<class 'name'>`. -/
def tyStr (v : YVal) : String := "<class " ++ sq ++ tyName v ++ sq ++ ">"

/-- Quote character chosen by Python `repr` for a string literal. -/
def reprQuote (s : String) : Char :=
  if s.data.contains (Char.ofNat 39) && !(s.data.contains (Char.ofNat 34)) then Char.ofNat 34
  else Char.ofNat 39

/-- Escaping of one character inside a Python `repr` string literal. -/
def escChar (q : Char) (c : Char) : String :=
  if c = Char.ofNat 92 || c = q then String.singleton (Char.ofNat 92) ++ String.singleton c
  else if c = Char.ofNat 10 then String.singleton (Char.ofNat 92) ++ "n"
  else if c = Char.ofNat 13 then String.singleton (Char.ofNat 92) ++ "r"
  else if c = Char.ofNat 9 then String.singleton (Char.ofNat 92) ++ "t"
  else String.singleton c

/-- Python `repr` of a string. -/
def strRepr (s : String) : String :=
  let q := reprQuote s
  String.singleton q ++ String.join (s.data.map (escChar q)) ++ String.singleton q

mutual

/-- Model of Python `repr` on decoded YAML values. -/
def pyRepr : YVal → String
  | .ynull => "None"
  | .ybool b => if b then "True" else "False"
  | .yint n => toString n
  | .ystr s => strRepr s
  | .ylist xs => "[" ++ reprElems xs ++ "]"
  | .ydict kvs => "\x7b" ++ reprPairs kvs ++ "\x7d"

/-- Comma-joined `repr`s of the elements of a list. -/
def reprElems : List YVal → String
  | [] => ""
  | [v] => pyRepr v
  | v :: w :: vs => pyRepr v ++ ", " ++ reprElems (w :: vs)

/-- Comma-joined `key: value` `repr`s of the entries of a mapping. -/
def reprPairs : List (YVal × YVal) → String
  | [] => ""
  | [(k, v)] => pyRepr k ++ ": " ++ pyRepr v
  | (k, v) :: p :: ps => pyRepr k ++ ": " ++ pyRepr v ++ ", " ++ reprPairs (p :: ps)

end

/-- Model of Python `str` on decoded YAML values: identity on strings,
`repr` otherwise (as for `None`, booleans, numbers and containers). -/
def pyStr : YVal → String
  | .ystr s => s
  | v => pyRepr v

/-- Lexicographic code-point comparison of strings, the order Python uses
for `str < str`. -/
def strLtb : List Char → List Char → Bool
  | [], [] => false
  | [], _ :: _ => true
  | _ :: _, [] => false
  | a :: as, b :: bs =>
    if a.toNat < b.toNat then true
    else if b.toNat < a.toNat then false
    else strLtb as bs

/-- Python `<` on decoded YAML scalar values: defined between numbers
(booleans count as integers) and between strings, undefined otherwise.
Containers never occur as YAML mapping keys (they are unhashable), so the
script never compares them. -/
def pyLtb : YVal → YVal → Option Bool
  | .yint a, .yint b => some (decide (a < b))
  | .yint a, .ybool true => some (decide (a < 1))
  | .yint a, .ybool false => some (decide (a < 0))
  | .ybool true, .yint b => some (decide (1 < b))
  | .ybool false, .yint b => some (decide (0 < b))
  | .ybool a, .ybool b => some (!a && b)
  | .ystr a, .ystr b => some (strLtb a.data b.data)
  | _, _ => none

/-- Message of the `TypeError` Python raises on an unsupported `<`. -/
def cmpErrMsg (a b : YVal) : String :=
  sq ++ "<" ++ sq ++ " not supported between instances of " ++ sq ++ tyName a ++ sq
    ++ " and " ++ sq ++ tyName b ++ sq

/-- One insertion step of a stable sort using Python `<`; fails like Python
`sorted` when two elements do not compare. -/
def pyInsert (x : YVal) : List YVal → Except String (List YVal)
  | [] => .ok [x]
  | h :: t =>
    match pyLtb x h with
    | none => .error (cmpErrMsg x h)
    | some true => .ok (x :: h :: t)
    | some false =>
      match pyInsert x t with
      | .error e => .error e
      | .ok r => .ok (h :: r)

/-- Left-to-right insertion pass of the sort. -/
def pySortedAux : List YVal → List YVal → Except String (List YVal)
  | [], acc => .ok acc
  | x :: xs, acc =>
    match pyInsert x acc with
    | .error e => .error e
    | .ok acc2 => pySortedAux xs acc2

/-- Model of Python `sorted`: a stable sort by `<` that raises `TypeError`
when elements are incomparable. -/
def pySorted (l : List YVal) : Except String (List YVal) := pySortedAux l []

/-- Model of Python `str.split` with a one-character separator. -/
def splitChar (sep : Char) : List Char → List (List Char)
  | [] => [[]]
  | c :: cs =>
    if c = sep then [] :: splitChar sep cs
    else
      match splitChar sep cs with
      | [] => [[c]]
      | h :: t => (c :: h) :: t

/-- Base identifier of a task reference: `s.split("-")[0]`, the part of the
string before its first hyphen. -/
def baseId (s : String) : String := ⟨(splitChar '-' s.data).headD s.data⟩

/-- Base identifier of an arbitrary decoded key or reference value:
`str(v).split("-")[0]`. -/
def baseOf (v : YVal) : String := baseId (pyStr v)

/-- Characters of a path with trailing separators removed. -/
def dropTrailing (c : Char) (cs : List Char) : List Char :=
  (cs.reverse.dropWhile (fun x => x = c)).reverse

/-- Model of `pathlib.PurePosixPath(s).name`: the final path component. -/
def pyPathName (s : String) : String :=
  ⟨(splitChar '/' (dropTrailing '/' s.data)).getLastD []⟩

/-- Index of the last `.` in a file name, if any. -/
def lastDotIdx (cs : List Char) : Option Nat :=
  (List.range cs.length).foldl
    (fun acc i => if cs.getD i ' ' = '.' then some i else acc) none

/-- Stem of a file name: cut at the last dot when it is neither leading nor
trailing, following `pathlib`. -/
def stemOfName (cs : List Char) : List Char :=
  match lastDotIdx cs with
  | some i => if 0 < i ∧ i < cs.length - 1 then cs.take i else cs
  | none => cs

/-- Model of `pathlib.Path(s).stem`. -/
def pyPathStem (s : String) : String := ⟨stemOfName (pyPathName s).data⟩

/-- Model of `d.get(key)` for the string keys the script looks up.  Python
compares keys with `==`; a string key equals no value of another type. -/
def kvLookup (key : String) : List (YVal × YVal) → Option YVal
  | [] => none
  | (k, v) :: rest =>
    match k with
    | .ystr s => if s = key then some v else kvLookup key rest
    | _ => kvLookup key rest

/-- State of one required file as the script finds it: absent, present but
not valid YAML, or parsed to a document. -/
inductive FileContent where
  | missing
  | parseError (e : String)
  | parsed (v : YVal)

/-- The three files the script reads. -/
structure Files where
  start_lite : FileContent
  assign_lite : FileContent
  task_assembly : FileContent

/-- Path of `configs/start_task_lite.yaml` under the repository root. -/
def startPath (root : String) : String := root ++ "/configs/start_task_lite.yaml"

/-- Path of `configs/assignments/lite.yaml` under the repository root. -/
def assignPath (root : String) : String := root ++ "/configs/assignments/lite.yaml"

/-- Path of `configs/tasks/task_assembly.yaml` under the repository root. -/
def assemblyPath (root : String) : String := root ++ "/configs/tasks/task_assembly.yaml"

/-- Message of Python's `FileNotFoundError` for a path. -/
def fnfMsg (path : String) : String :=
  "[Errno 2] No such file or directory: " ++ sq ++ path ++ sq

/-- Embedding of `load_yaml`: any exception while opening or parsing becomes
`Failed to parse YAML`; a `None` document becomes the empty mapping; a
non-mapping document is rejected with its type. -/
def load_yaml (path : String) (fc : FileContent) : Except String (List (YVal × YVal)) :=
  match fc with
  | .missing => .error ("Failed to parse YAML: " ++ path ++ ": " ++ fnfMsg path)
  | .parseError e => .error ("Failed to parse YAML: " ++ path ++ ": " ++ e)
  | .parsed v =>
    match v with
    | .ynull => .ok []
    | .ydict kvs => .ok kvs
    | _ => .error ("Expected mapping at top-level in " ++ path ++ ", got " ++ tyStr v)

/-- Embedding of the existence check `if not p.exists(): raise`. -/
def checkExists (path : String) (fc : FileContent) : Except String Unit :=
  match fc with
  | .missing => .error ("Missing required file: " ++ path)
  | _ => .ok ()

/-- Decoded list elements as strings, when all of them are strings
(`all(isinstance(x, str) for x in imports)`). -/
def strsOf : List YVal → Option (List String)
  | [] => some []
  | .ystr s :: rest => (strsOf rest).map (fun ss => s :: ss)
  | _ => none

/-- Schema message for a bad `import` field. -/
def importErrMsg : String :=
  "configs/tasks/task_assembly.yaml must have a list field: import"

/-- Embedding of lines 52-59: read `import` (defaulting to `[]` when absent),
require a list of strings, and collect the file-name stems.  Membership is all
the script uses of the resulting set, so it is kept as a list. -/
def knownTasksOf (assembly_cfg : List (YVal × YVal)) : Except String (List String) :=
  match (kvLookup "import" assembly_cfg).getD (.ylist []) with
  | .ylist xs =>
    match strsOf xs with
    | some rels => .ok (rels.map pyPathStem)
    | none => .error importErrMsg
  | _ => .error importErrMsg

/-- The test `str(v).split("-")[0] not in task_names` applied to a key or
reference, as a predicate. -/
def unresolvedIn (task_names : List String) (v : YVal) : Bool :=
  !(task_names.contains (baseOf v))

/-- Schema message for a bad `start` field. -/
def startFieldMsg : String :=
  "configs/start_task_lite.yaml must have non-empty mapping field: start"

/-- Unknown-reference message for the start document. -/
def startUnknownMsg (l : List YVal) : String :=
  "start_task_lite.yaml references tasks not present in task_assembly imports: "
    ++ String.intercalate ", " (l.map pyStr)

/-- Embedding of lines 62-71: `start` must be a non-empty mapping; the keys
whose base identifier is unknown are collected, sorted, and reported. -/
def checkStart (task_names : List String) (start_cfg : List (YVal × YVal)) : Except String Unit :=
  match (kvLookup "start" start_cfg).getD (.ydict []) with
  | .ydict [] => .error startFieldMsg
  | .ydict (kv :: kvs) =>
    match pySorted (((kv :: kvs).map Prod.fst).filter (unresolvedIn task_names)) with
    | .error e => .error e
    | .ok [] => .ok ()
    | .ok (u :: us) => .error (startUnknownMsg (u :: us))
  | _ => .error startFieldMsg

/-- Message for a non-mapping assignment element. -/
def mappingMsg : String := "Each assignment must be a mapping"

/-- Message for a `task` field that is neither string nor list. -/
def taskTypeMsg : String := "assignment.task must be a string or list"

/-- Schema message for a bad `assignments` field. -/
def assignsFieldMsg : String :=
  "configs/assignments/lite.yaml must have a non-empty list field: assignments"

/-- Unknown-reference message for the assignment document. -/
def assignUnknownMsg (l : List YVal) : String :=
  "assignments/lite.yaml references tasks not present in task_assembly imports: "
    ++ String.intercalate ", " (l.map pyStr)

/-- Embedding of lines 83-86: a string `task` value becomes a one-element
list, a list passes through, anything else is a schema error. -/
def normTask : YVal → Except String (List YVal)
  | .ystr s => .ok [.ystr s]
  | .ylist ts => .ok ts
  | _ => .error taskTypeMsg

/-- Embedding of the loop at lines 79-90, threading the accumulated
`unknown_in_assign` list. -/
def assignLoop (task_names : List String) : List YVal → List YVal → Except String (List YVal)
  | [], acc => .ok acc
  | a :: rest, acc =>
    match a with
    | .ydict kvs =>
      match normTask ((kvLookup "task" kvs).getD (.ylist [])) with
      | .error e => .error e
      | .ok tasks =>
        assignLoop task_names rest (acc ++ tasks.filter (unresolvedIn task_names))
    | _ => .error mappingMsg

/-- Embedding of lines 74-96: `assignments` must be a non-empty list; the
loop collects unknown references, which are then reported in order. -/
def checkAssignments (task_names : List String) (assign_cfg : List (YVal × YVal)) :
    Except String Unit :=
  match kvLookup "assignments" assign_cfg with
  | some (.ylist (a :: as)) =>
    match assignLoop task_names (a :: as) [] with
    | .error e => .error e
    | .ok [] => .ok ()
    | .ok (u :: us) => .error (assignUnknownMsg (u :: us))
  | _ => .error assignsFieldMsg

/-- Embedding of `main`: the existence checks, the three loads, and the three
validation phases, in source order. -/
def mainFn (root : String) (fs : Files) : Except String Nat := do
  let _ ← checkExists (startPath root) fs.start_lite
  let _ ← checkExists (assignPath root) fs.assign_lite
  let _ ← checkExists (assemblyPath root) fs.task_assembly
  let start_cfg ← load_yaml (startPath root) fs.start_lite
  let assign_cfg ← load_yaml (assignPath root) fs.assign_lite
  let assembly_cfg ← load_yaml (assemblyPath root) fs.task_assembly
  let task_names ← knownTasksOf assembly_cfg
  let _ ← checkStart task_names start_cfg
  let _ ← checkAssignments task_names assign_cfg
  pure 0

/-- Observable outcome of one run: exit code and the two output streams as
lists of lines. -/
structure ProcResult where
  exitCode : Nat
  stdout : List String
  stderr : List String
deriving DecidableEq

/-- Embedding of the `__main__` wrapper: on success `main` prints the OK line
and its return value becomes the exit status; any exception is printed as a
single `ERROR:` line on stderr with exit status 1. -/
def program (root : String) (fs : Files) : ProcResult :=
  match mainFn root fs with
  | .ok n => ⟨n, ["OK: lite configs look valid"], []⟩
  | .error e => ⟨1, [], ["ERROR: " ++ e]⟩

/-- Ascending-adjacency relation of Python `<`: `b` is not less than `a`.
A list sorted by Python `sorted` has adjacent pairs in this relation. -/
def noInv (a b : YVal) : Prop := pyLtb b a ≠ some true

/-- The sequence of task references an assignment element contributes, when
it is structurally well-formed (`none` exactly when the loop body raises). -/
def taskRefsOf (a : YVal) : Option (List YVal) :=
  match a with
  | .ydict kvs =>
    match normTask ((kvLookup "task" kvs).getD (.ylist [])) with
    | .ok ts => some ts
    | .error _ => none
  | _ => none

/-- The schema message the loop body raises on a malformed element. -/
def badMsg (a : YVal) : String :=
  match a with
  | .ydict _ => taskTypeMsg
  | _ => mappingMsg

/-- The unknown references of a well-formed assignment list: each element
contributes the original (un-based) unresolvable references of its `task`
field, appended in encounter order, without deduplication. -/
def collectViol (task_names : List String) : List YVal → List YVal
  | [] => []
  | a :: as =>
    ((taskRefsOf a).getD []).filter (unresolvedIn task_names) ++ collectViol task_names as

/-- A file set on which every check passes. -/
def fsOKw : Files :=
  { start_lite := .parsed (.ydict [(.ystr "start", .ydict [(.ystr "webshop-easy", .ynull)])])
    assign_lite := .parsed (.ydict [(.ystr "assignments",
      .ylist [.ydict [(.ystr "task", .ystr "webshop")]])])
    task_assembly := .parsed (.ydict [(.ystr "import", .ylist [.ystr "webshop.yaml"])]) }

/-- The same file set with the task-assembly file removed. -/
def fsFailw : Files := { fsOKw with task_assembly := .missing }

/-- A file set whose start mapping holds the unresolvable keys `"z-x"` then
`"a-x"`, in that insertion order, against an empty import list. -/
def fsC1 : Files :=
  { start_lite := .parsed (.ydict [(.ystr "start",
      .ydict [(.ystr "z-x", .ynull), (.ystr "a-x", .ynull)])])
    assign_lite := .parsed (.ydict [(.ystr "assignments", .ylist [.ydict []])])
    task_assembly := .parsed (.ydict []) }

/-- A file set whose task-assembly document lacks the `import` field
entirely, with a start mapping referencing `webshop`. -/
def fsC2 : Files :=
  { start_lite := .parsed (.ydict [(.ystr "start", .ydict [(.ystr "webshop", .ynull)])])
    assign_lite := .parsed (.ydict [(.ystr "assignments", .ylist [.ydict []])])
    task_assembly := .parsed (.ydict []) }

/-- A file set whose start mapping has two unresolvable keys of different
types, the integer `1` and the string `"z"`. -/
def fsC10 : Files :=
  { start_lite := .parsed (.ydict [(.ystr "start",
      .ydict [(.yint 1, .ynull), (.ystr "z", .ynull)])])
    assign_lite := .parsed (.ydict [(.ystr "assignments", .ylist [.ydict []])])
    task_assembly := .parsed (.ydict []) }

lemma splitChar_ne_nil (sep : Char) (cs : List Char) : splitChar sep cs ≠ [] := by
  induction cs with
  | nil => simp [splitChar]
  | cons c cs ih =>
    by_cases h : c = sep
    · simp [splitChar, h]
    · simp only [splitChar, if_neg h]
      cases hr : splitChar sep cs with
      | nil => simp
      | cons a t => simp

lemma splitChar_headD (sep : Char) (cs : List Char) (d : List Char) :
    (splitChar sep cs).headD d = cs.takeWhile (fun c => c != sep) := by
  induction cs with
  | nil => simp [splitChar]
  | cons c cs ih =>
    by_cases h : c = sep
    · subst h
      simp [splitChar, List.takeWhile_cons]
    · simp only [splitChar, if_neg h]
      cases hr : splitChar sep cs with
      | nil => exact absurd hr (splitChar_ne_nil sep cs)
      | cons a t =>
        rw [hr] at ih
        simp only [List.headD_cons] at ih
        simp [List.takeWhile_cons, h, ← ih]

lemma baseId_takeWhile (s : String) :
    baseId s = ⟨s.data.takeWhile (fun c => c != '-')⟩ := by
  unfold baseId
  rw [splitChar_headD]

lemma takeWhile_of_all {α} (p : α → Bool) :
    ∀ l : List α, (∀ c ∈ l, p c) → l.takeWhile p = l
  | [], _ => rfl
  | a :: l, h => by
    have ha : p a := h a (by simp)
    simp [List.takeWhile_cons, ha, takeWhile_of_all p l (fun c hc => h c (by simp [hc]))]

lemma takeWhile_append_stop {α} (p : α → Bool) (x : α) (hx : p x = false) :
    ∀ l1 l2 : List α, (∀ c ∈ l1, p c) → (l1 ++ x :: l2).takeWhile p = l1
  | [], l2, _ => by simp [List.takeWhile_cons, hx]
  | a :: l1, l2, h => by
    have ha : p a := h a (by simp)
    simp [List.takeWhile_cons, ha,
      takeWhile_append_stop p x hx l1 l2 (fun c hc => h c (by simp [hc]))]

/-- C4: base-identifier extraction takes the part of a reference before its
first hyphen: on `X ++ "-" ++ Y ++ "-" ++ Z` with `X` hyphen-free it yields
`X`, and a hyphen-free reference is its own base identifier. -/
theorem base_id_extraction (X Y Z s : String)
    (hX : ∀ c ∈ X.data, c ≠ '-') (hs : ∀ c ∈ s.data, c ≠ '-') :
    baseId (X ++ "-" ++ Y ++ "-" ++ Z) = X ∧ baseId s = s := by
  constructor
  · rw [baseId_takeWhile]
    have hdata : (X ++ "-" ++ Y ++ "-" ++ Z).data
        = X.data ++ '-' :: (Y.data ++ '-' :: Z.data) := by
      simp [String.data_append]
    rw [hdata, takeWhile_append_stop _ '-' (by simp) X.data _
      (fun c hc => by simp [hX c hc])]
  · rw [baseId_takeWhile,
      takeWhile_of_all _ s.data (fun c hc => by simp [hs c hc])]

/-- Witness for `base_id_extraction` at concrete strings. -/
theorem base_id_extraction_witness :
    baseId ("web" ++ "-" ++ "v" ++ "-" ++ "2") = "web" ∧ baseId "plain" = "plain" :=
  base_id_extraction "web" "v" "2" "plain" (by decide) (by decide)

lemma strLtb_asymm : ∀ as bs : List Char, strLtb as bs = true → strLtb bs as = true → False := by
  intro as
  induction as with
  | nil =>
    intro bs h1 h2
    cases bs <;> simp [strLtb] at h1 h2
  | cons a as ih =>
    intro bs h1 h2
    cases bs with
    | nil => simp [strLtb] at h1
    | cons b bs =>
      simp only [strLtb] at h1 h2
      by_cases hab : a.toNat < b.toNat
      · have hba : ¬ b.toNat < a.toNat := by omega
        simp [hab, hba] at h2
      · by_cases hba : b.toNat < a.toNat
        · simp [hab, hba] at h1
        · simp [hab, hba] at h1 h2
          exact ih bs h1 h2

lemma pyLtb_asymm : ∀ a b : YVal, pyLtb a b = some true → pyLtb b a = some true → False := by
  intro a b h1 h2
  cases a <;> cases b
  all_goals try simp [pyLtb] at h1
  case yint.yint => simp [pyLtb] at h2; omega
  case yint.ybool =>
    rename_i n c
    cases c <;> simp [pyLtb] at h1 h2 <;> omega
  case ybool.yint =>
    rename_i c n
    cases c <;> simp [pyLtb] at h1 h2 <;> omega
  case ybool.ybool =>
    rename_i c d
    cases c <;> cases d <;> simp [pyLtb] at h1 h2
  case ystr.ystr =>
    simp [pyLtb] at h2
    exact strLtb_asymm _ _ h1 h2

lemma noInv_of_lt {x h : YVal} (hlt : pyLtb x h = some true) : noInv x h :=
  fun hc => pyLtb_asymm x h hlt hc

lemma noInv_of_not_lt {x h : YVal} (hlt : pyLtb x h = some false) : noInv h x := by
  unfold noInv
  rw [hlt]
  simp

lemma pyInsert_cases (x h : YVal) (t r : List YVal) (hr : pyInsert x (h :: t) = .ok r) :
    (pyLtb x h = some true ∧ r = x :: h :: t) ∨
    (pyLtb x h = some false ∧ ∃ r2, pyInsert x t = .ok r2 ∧ r = h :: r2) := by
  unfold pyInsert at hr
  cases hlt : pyLtb x h with
  | none => rw [hlt] at hr; simp at hr
  | some b =>
    cases b
    · rw [hlt] at hr
      cases hrec : pyInsert x t with
      | error e => rw [hrec] at hr; simp at hr
      | ok r2 =>
        rw [hrec] at hr
        simp at hr
        exact .inr ⟨rfl, r2, rfl, hr.symm⟩
    · rw [hlt] at hr
      simp at hr
      exact .inl ⟨rfl, hr.symm⟩

lemma pyInsert_perm (x : YVal) : ∀ l r, pyInsert x l = .ok r → List.Perm r (x :: l) := by
  intro l
  induction l with
  | nil =>
    intro r hr
    simp [pyInsert] at hr
    subst hr
    exact List.Perm.refl _
  | cons h t ih =>
    intro r hr
    rcases pyInsert_cases x h t r hr with ⟨_, rfl⟩ | ⟨_, r2, hrec, rfl⟩
    · exact List.Perm.refl _
    · exact ((ih r2 hrec).cons h).trans (List.Perm.swap x h t)

lemma pyInsert_head (x : YVal) (l r : List YVal) (hr : pyInsert x l = .ok r) :
    r.head? = some x ∨ r.head? = l.head? := by
  cases l with
  | nil =>
    simp [pyInsert] at hr
    subst hr
    exact .inl rfl
  | cons h t =>
    rcases pyInsert_cases x h t r hr with ⟨_, rfl⟩ | ⟨_, r2, _, rfl⟩
    · exact .inl rfl
    · exact .inr rfl

lemma pyInsert_chain (x : YVal) :
    ∀ l r, l.Chain' noInv → pyInsert x l = .ok r → r.Chain' noInv := by
  intro l
  induction l with
  | nil =>
    intro r _ hr
    simp [pyInsert] at hr
    subst hr
    exact List.chain'_singleton x
  | cons h t ih =>
    intro r hch hr
    rcases pyInsert_cases x h t r hr with ⟨hlt, rfl⟩ | ⟨hlt, r2, hrec, rfl⟩
    · exact List.chain'_cons.mpr ⟨noInv_of_lt hlt, hch⟩
    · rw [List.chain'_cons']
      refine ⟨?_, ih r2 hch.tail hrec⟩
      intro b hb
      rcases pyInsert_head x t r2 hrec with hh | hh
      · rw [hh] at hb
        simp at hb
        subst hb
        exact noInv_of_not_lt hlt
      · rw [hh] at hb
        exact (List.chain'_cons'.mp hch).1 b hb

lemma pySortedAux_perm : ∀ l acc r : List YVal,
    pySortedAux l acc = .ok r → List.Perm r (acc ++ l) := by
  intro l
  induction l with
  | nil =>
    intro acc r hr
    simp [pySortedAux] at hr
    subst hr
    simp
  | cons x xs ih =>
    intro acc r hr
    unfold pySortedAux at hr
    cases hi : pyInsert x acc with
    | error e => rw [hi] at hr; simp at hr
    | ok acc2 =>
      rw [hi] at hr
      have h1 := ih acc2 r hr
      have h2 := (pyInsert_perm x acc acc2 hi).append_right xs
      exact (h1.trans h2).trans List.perm_middle.symm

lemma pySortedAux_chain : ∀ l acc r : List YVal,
    acc.Chain' noInv → pySortedAux l acc = .ok r → r.Chain' noInv := by
  intro l
  induction l with
  | nil =>
    intro acc r hacc hr
    simp [pySortedAux] at hr
    subst hr
    exact hacc
  | cons x xs ih =>
    intro acc r hacc hr
    unfold pySortedAux at hr
    cases hi : pyInsert x acc with
    | error e => rw [hi] at hr; simp at hr
    | ok acc2 =>
      rw [hi] at hr
      exact ih acc2 r (pyInsert_chain x acc acc2 hacc hi) hr

lemma pySorted_perm (l r : List YVal) (hr : pySorted l = .ok r) : List.Perm r l := by
  simpa using pySortedAux_perm l [] r hr

lemma pySorted_chain (l r : List YVal) (hr : pySorted l = .ok r) : r.Chain' noInv :=
  pySortedAux_chain l [] r List.chain'_nil hr

/-- C1 counterexample: on a start mapping whose unresolvable keys appear in
insertion order `"z-x", "a-x"`, the run reports them as `"a-x, z-x"` —
sorted, not in insertion order as the claim states. -/
theorem start_order_counterexample :
    mainFn "." fsC1 = .error (startUnknownMsg [.ystr "a-x", .ystr "z-x"]) ∧
    [YVal.ystr "z-x", YVal.ystr "a-x"].filter (unresolvedIn [])
      = [YVal.ystr "z-x", YVal.ystr "a-x"] ∧
    startUnknownMsg [.ystr "a-x", .ystr "z-x"] ≠ startUnknownMsg [.ystr "z-x", .ystr "a-x"] := by
  refine ⟨rfl, rfl, ?_⟩
  decide

/-- C1 (amended): when the start mapping is present and non-empty and its
unresolvable keys sort without a type error into a non-empty list, the
checker fails with the unknown-reference message listing exactly those keys
(a permutation of the unresolvable ones), comma-joined, in ascending
Python-`<` order. -/
theorem start_unknown_sorted (tn : List String) (cfg : List (YVal × YVal))
    (kv : YVal × YVal) (kvs : List (YVal × YVal)) (u : YVal) (us : List YVal)
    (hget : (kvLookup "start" cfg).getD (.ydict []) = .ydict (kv :: kvs))
    (hsort : pySorted (((kv :: kvs).map Prod.fst).filter (unresolvedIn tn)) = .ok (u :: us)) :
    checkStart tn cfg = .error (startUnknownMsg (u :: us)) ∧
    List.Perm (u :: us) (((kv :: kvs).map Prod.fst).filter (unresolvedIn tn)) ∧
    List.Chain' noInv (u :: us) := by
  refine ⟨?_, pySorted_perm _ _ hsort, pySorted_chain _ _ hsort⟩
  unfold checkStart
  rw [hget]
  simp only [hsort]

/-- Witness for `start_unknown_sorted`: two unresolvable string keys inserted
as `"z"` then `"a"` are reported as `"a", "z"`. -/
theorem start_unknown_sorted_witness :
    checkStart [] [(.ystr "start", .ydict [(.ystr "z", .ynull), (.ystr "a", .ynull)])]
      = .error (startUnknownMsg [.ystr "a", .ystr "z"]) ∧
    List.Perm [YVal.ystr "a", YVal.ystr "z"] [YVal.ystr "z", YVal.ystr "a"] ∧
    List.Chain' noInv [YVal.ystr "a", YVal.ystr "z"] := by
  have h := start_unknown_sorted []
    [(.ystr "start", .ydict [(.ystr "z", .ynull), (.ystr "a", .ynull)])]
    (.ystr "z", .ynull) [(.ystr "a", .ynull)] (.ystr "a") [.ystr "z"] rfl rfl
  have e : ([(YVal.ystr "z", YVal.ynull), (YVal.ystr "a", YVal.ynull)].map Prod.fst).filter
      (unresolvedIn []) = [YVal.ystr "z", YVal.ystr "a"] := rfl
  rw [e] at h
  exact h

/-- C2 counterexample: a task-assembly document with no `import` field does
not produce the schema error naming the field; the checker proceeds with an
empty Known Task Set and fails later with an unknown-reference error. -/
theorem import_absent_counterexample :
    mainFn "." fsC2 = .error (startUnknownMsg [.ystr "webshop"]) ∧
    startUnknownMsg [.ystr "webshop"] ≠ importErrMsg ∧
    knownTasksOf [] = .ok [] := by
  refine ⟨rfl, ?_, rfl⟩
  decide

/-- C2 (amended): an absent `import` field defaults to the empty list and the
checker proceeds with an empty Known Task Set; a present `import` field that
is not a list, or a list with a non-string entry, is a schema error naming
the field. -/
theorem import_field_handling (cfg : List (YVal × YVal)) :
    (kvLookup "import" cfg = none → knownTasksOf cfg = .ok []) ∧
    (∀ xs, kvLookup "import" cfg = some (.ylist xs) → strsOf xs = none →
      knownTasksOf cfg = .error importErrMsg) ∧
    (∀ v, kvLookup "import" cfg = some v → (∀ xs, v ≠ .ylist xs) →
      knownTasksOf cfg = .error importErrMsg) := by
  refine ⟨?_, ?_, ?_⟩
  · intro h
    unfold knownTasksOf
    rw [h]
    rfl
  · intro xs h hs
    unfold knownTasksOf
    rw [h]
    simp only [Option.getD_some]
    rw [hs]
  · intro v h hv
    unfold knownTasksOf
    rw [h]
    cases v with
    | ylist xs => exact absurd rfl (hv xs)
    | ynull => rfl
    | ybool b => rfl
    | yint n => rfl
    | ystr s => rfl
    | ydict kvs => rfl

/-- Witness for `import_field_handling` at three concrete registry
documents: field absent, field a bare string, field a list holding a
number. -/
theorem import_field_handling_witness :
    knownTasksOf [] = .ok [] ∧
    knownTasksOf [(.ystr "import", .ystr "webshop.yaml")] = .error importErrMsg ∧
    knownTasksOf [(.ystr "import", .ylist [.yint 3])] = .error importErrMsg := by
  refine ⟨(import_field_handling []).1 rfl, ?_, ?_⟩
  · exact (import_field_handling _).2.2 (.ystr "webshop.yaml") rfl (fun xs h => by cases h)
  · exact (import_field_handling _).2.1 [.yint 3] rfl rfl

lemma normTask_error (v : YVal) (e : String) (h : normTask v = .error e) : e = taskTypeMsg := by
  cases v <;> simp [normTask] at h <;> exact h.symm

lemma assignLoop_wf (tn : List String) :
    ∀ (as : List YVal) (acc : List YVal),
    (∀ a ∈ as, (taskRefsOf a).isSome) →
    assignLoop tn as acc = .ok (acc ++ collectViol tn as) := by
  intro as
  induction as with
  | nil =>
    intro acc _
    simp [assignLoop, collectViol]
  | cons a as ih =>
    intro acc h
    have ha := h a (by simp)
    cases a with
    | ydict kvs =>
      cases hn : normTask ((kvLookup "task" kvs).getD (.ylist [])) with
      | error e => simp [taskRefsOf, hn] at ha
      | ok ts =>
        simp only [assignLoop, hn]
        rw [ih _ (fun b hb => h b (by simp [hb]))]
        simp [collectViol, taskRefsOf, hn]
    | ynull => simp [taskRefsOf] at ha
    | ybool b => simp [taskRefsOf] at ha
    | yint n => simp [taskRefsOf] at ha
    | ystr s => simp [taskRefsOf] at ha
    | ylist xs => simp [taskRefsOf] at ha

lemma assignLoop_bad (tn : List String) (a0 : YVal) (hbad : taskRefsOf a0 = none) :
    ∀ (pre : List YVal) (acc rest : List YVal),
    (∀ a ∈ pre, (taskRefsOf a).isSome) →
    assignLoop tn (pre ++ a0 :: rest) acc = .error (badMsg a0) := by
  intro pre
  induction pre with
  | nil =>
    intro acc rest _
    cases a0 with
    | ydict kvs =>
      cases hn : normTask ((kvLookup "task" kvs).getD (.ylist [])) with
      | error e =>
        simp only [List.nil_append, assignLoop]
        rw [hn, normTask_error _ _ hn]
        rfl
      | ok ts => simp [taskRefsOf, hn] at hbad
    | ynull => rfl
    | ybool b => rfl
    | yint n => rfl
    | ystr s => rfl
    | ylist xs => rfl
  | cons p pre ih =>
    intro acc rest h
    have hp := h p (by simp)
    cases p with
    | ydict kvs =>
      cases hn : normTask ((kvLookup "task" kvs).getD (.ylist [])) with
      | error e => simp [taskRefsOf, hn] at hp
      | ok ts =>
        simp only [List.cons_append, assignLoop, hn]
        exact ih _ rest (fun b hb => h b (by simp [hb]))
    | ynull => simp [taskRefsOf] at hp
    | ybool b => simp [taskRefsOf] at hp
    | yint n => simp [taskRefsOf] at hp
    | ystr s => simp [taskRefsOf] at hp
    | ylist xs => simp [taskRefsOf] at hp

lemma checkAssignments_loop (tn : List String) (cfg : List (YVal × YVal))
    (l : List YVal) (hget : kvLookup "assignments" cfg = some (.ylist l)) (hne : l ≠ []) :
    checkAssignments tn cfg =
      (match assignLoop tn l [] with
       | .error e => .error e
       | .ok [] => .ok ()
       | .ok (u :: us) => .error (assignUnknownMsg (u :: us))) := by
  cases l with
  | nil => exact absurd rfl hne
  | cons a as =>
    unfold checkAssignments
    rw [hget]

/-- C3: for a well-formed assignment list, the checker collects the original
unresolvable references in encounter order, without deduplication, and
succeeds exactly when that collection is empty, failing otherwise with the
references comma-joined in that order. -/
theorem assign_violations_order (tn : List String) (cfg : List (YVal × YVal))
    (a0 : YVal) (as : List YVal)
    (hget : kvLookup "assignments" cfg = some (.ylist (a0 :: as)))
    (hwf : ∀ a ∈ a0 :: as, (taskRefsOf a).isSome) :
    (collectViol tn (a0 :: as) = [] → checkAssignments tn cfg = .ok ()) ∧
    (∀ u us, collectViol tn (a0 :: as) = u :: us →
      checkAssignments tn cfg = .error (assignUnknownMsg (u :: us))) := by
  have hloop := checkAssignments_loop tn cfg (a0 :: as) hget (by simp)
  rw [assignLoop_wf tn (a0 :: as) [] hwf] at hloop
  simp only [List.nil_append] at hloop
  constructor
  · intro h
    rw [h] at hloop
    exact hloop
  · intro u us h
    rw [h] at hloop
    exact hloop

/-- Witness for `assign_violations_order`: `webshop` resolves, the full
reference `ghosttask-v2` does not, and the message carries the original
reference, not its base. -/
theorem assign_violations_order_witness :
    checkAssignments ["webshop"]
      [(.ystr "assignments", .ylist [.ydict [(.ystr "task",
        .ylist [.ystr "webshop", .ystr "ghosttask-v2"])]])]
      = .error (assignUnknownMsg [.ystr "ghosttask-v2"]) ∧
    assignUnknownMsg [.ystr "ghosttask-v2"]
      = "assignments/lite.yaml references tasks not present in task_assembly imports: ghosttask-v2" := by
  refine ⟨?_, rfl⟩
  exact (assign_violations_order ["webshop"]
    [(.ystr "assignments", .ylist [.ydict [(.ystr "task",
      .ylist [.ystr "webshop", .ystr "ghosttask-v2"])]])]
    (.ydict [(.ystr "task", .ylist [.ystr "webshop", .ystr "ghosttask-v2"])]) [] rfl
    (by decide)).2 (.ystr "ghosttask-v2") [] rfl

lemma badMsg_ne_unknown (a : YVal) (l : List YVal) : badMsg a ≠ assignUnknownMsg l := by
  intro h
  have hlen : (badMsg a).length = (assignUnknownMsg l).length := by rw [h]
  have h2 : (assignUnknownMsg l).length
      = 77 + (String.intercalate ", " (l.map pyStr)).length := by
    unfold assignUnknownMsg
    rw [String.length_append]
    have h77 : ("assignments/lite.yaml references tasks not present in task_assembly imports: " : String).length = 77 := by decide
    rw [h77]
  rw [h2] at hlen
  have hb : (badMsg a).length ≤ 40 := by
    cases a <;> simp only [badMsg] <;> decide
  omega

/-- C9: a structurally malformed assignment element (a non-mapping, or a
`task` field of the wrong type) makes the run fail with that schema error
even when earlier well-formed elements already contributed unresolvable
references: the collected violations are discarded and no unknown-reference
message is produced. -/
theorem schema_error_discards (tn : List String) (cfg : List (YVal × YVal))
    (pre : List YVal) (a0 : YVal) (rest : List YVal)
    (hget : kvLookup "assignments" cfg = some (.ylist (pre ++ a0 :: rest)))
    (hpre : ∀ a ∈ pre, (taskRefsOf a).isSome)
    (hbad : taskRefsOf a0 = none) :
    checkAssignments tn cfg = .error (badMsg a0) ∧
    ∀ l, badMsg a0 ≠ assignUnknownMsg l := by
  refine ⟨?_, badMsg_ne_unknown a0⟩
  have hloop := checkAssignments_loop tn cfg (pre ++ a0 :: rest) hget (by simp)
  rw [assignLoop_bad tn a0 hbad pre [] rest hpre] at hloop
  exact hloop

/-- Witness for `schema_error_discards`: the first element carries the
unresolvable reference `ghost-1`, the second element is the integer `3`;
the run reports the mapping schema error, not the unknown reference. -/
theorem schema_error_discards_witness :
    checkAssignments []
      [(.ystr "assignments", .ylist [.ydict [(.ystr "task", .ystr "ghost-1")], .yint 3])]
      = .error mappingMsg ∧
    mappingMsg ≠ assignUnknownMsg [.ystr "ghost-1"] := by
  have h := schema_error_discards []
    [(.ystr "assignments", .ylist [.ydict [(.ystr "task", .ystr "ghost-1")], .yint 3])]
    [.ydict [(.ystr "task", .ystr "ghost-1")]] (.yint 3) [] rfl (by decide) rfl
  exact ⟨h.1, h.2 [.ystr "ghost-1"]⟩

/-- C8: an assignment element that is a mapping without a `task` field is
treated as holding an empty reference list: it contributes nothing and the
loop moves on, and alone it validates successfully. -/
theorem absent_task_field_passes (tn : List String) (rest acc : List YVal)
    (kvs : List (YVal × YVal)) (h : kvLookup "task" kvs = none) :
    assignLoop tn (.ydict kvs :: rest) acc = assignLoop tn rest acc ∧
    checkAssignments tn [(.ystr "assignments", .ylist [.ydict kvs])] = .ok () := by
  have hstep : ∀ acc2 rest2, assignLoop tn (.ydict kvs :: rest2) acc2 = assignLoop tn rest2 acc2 := by
    intro acc2 rest2
    simp only [assignLoop, h]
    simp [normTask]
  refine ⟨hstep acc rest, ?_⟩
  have hloop := checkAssignments_loop tn
    [(.ystr "assignments", .ylist [.ydict kvs])] [.ydict kvs] rfl (by simp)
  rw [hstep [] []] at hloop
  exact hloop

/-- Witness for `absent_task_field_passes` at a mapping with an unrelated
field only. -/
theorem absent_task_field_passes_witness :
    assignLoop [] [.ydict [(.ystr "other", .yint 1)]] [] = assignLoop [] [] [] ∧
    checkAssignments [] [(.ystr "assignments", .ylist [.ydict [(.ystr "other", .yint 1)]])]
      = .ok () :=
  absent_task_field_passes [] [] [] [(.ystr "other", .yint 1)] rfl

/-- C6: an assignment element whose `task` field is a single string is
validated as the one-element sequence holding it; a sequence is validated
as-is; any other type stops the run with the schema error message
`assignment.task must be a string or list`. -/
theorem task_field_typing (tn : List String) (kvs : List (YVal × YVal))
    (rest acc : List YVal) (v : YVal)
    (hv : (kvLookup "task" kvs).getD (.ylist []) = v) :
    (∀ s, v = .ystr s → assignLoop tn (.ydict kvs :: rest) acc
      = assignLoop tn rest (acc ++ [YVal.ystr s].filter (unresolvedIn tn))) ∧
    (∀ ts, v = .ylist ts → assignLoop tn (.ydict kvs :: rest) acc
      = assignLoop tn rest (acc ++ ts.filter (unresolvedIn tn))) ∧
    ((∀ s, v ≠ .ystr s) → (∀ ts, v ≠ .ylist ts) →
      assignLoop tn (.ydict kvs :: rest) acc = .error taskTypeMsg) := by
  refine ⟨?_, ?_, ?_⟩
  · intro s hs
    subst hs
    simp only [assignLoop, hv]
    rfl
  · intro ts hts
    subst hts
    simp only [assignLoop, hv]
    rfl
  · intro hns hnl
    simp only [assignLoop, hv]
    cases v with
    | ystr s => exact absurd rfl (hns s)
    | ylist ts => exact absurd rfl (hnl ts)
    | ynull => rfl
    | ybool b => rfl
    | yint n => rfl
    | ydict kvs2 => rfl

/-- Witness for `task_field_typing` at three concrete elements: a string
`task`, a list `task`, and an integer `task`. -/
theorem task_field_typing_witness :
    assignLoop ["w"] [.ydict [(.ystr "task", .ystr "w-1")]] []
      = assignLoop ["w"] [] ([] ++ [YVal.ystr "w-1"].filter (unresolvedIn ["w"])) ∧
    assignLoop ["w"] [.ydict [(.ystr "task", .ylist [.ystr "g"])]] []
      = assignLoop ["w"] [] ([] ++ [YVal.ystr "g"].filter (unresolvedIn ["w"])) ∧
    assignLoop ["w"] [.ydict [(.ystr "task", .yint 7)]] [] = .error taskTypeMsg := by
  refine ⟨?_, ?_, ?_⟩
  · exact (task_field_typing ["w"] [(.ystr "task", .ystr "w-1")] [] [] (.ystr "w-1") rfl).1
      "w-1" rfl
  · exact (task_field_typing ["w"] [(.ystr "task", .ylist [.ystr "g"])] [] []
      (.ylist [.ystr "g"]) rfl).2.1 [.ystr "g"] rfl
  · exact (task_field_typing ["w"] [(.ystr "task", .yint 7)] [] [] (.yint 7) rfl).2.2
      (fun s h => by cases h) (fun ts h => by cases h)

/-- C5 counterexample: a document that decodes to the empty mapping (not to
null) also yields an empty mapping, so an empty result does not occur
exactly on null documents. -/
theorem load_empty_doc_counterexample :
    load_yaml "p" (.parsed (.ydict [])) = .ok [] ∧ YVal.ydict [] ≠ YVal.ynull :=
  ⟨rfl, fun h => nomatch h⟩

/-- C5 (amended): on a successfully parsed document the loader returns the
empty mapping when the document decodes to null, returns the decoded mapping
when the top level is a mapping (possibly also empty), and fails with the
file path and the decoded type when the top level is neither. -/
theorem load_yaml_cases (path : String) (v : YVal) :
    (load_yaml path (.parsed .ynull) = .ok []) ∧
    (∀ kvs, load_yaml path (.parsed (.ydict kvs)) = .ok kvs) ∧
    (v ≠ .ynull → (∀ kvs, v ≠ .ydict kvs) →
      load_yaml path (.parsed v)
        = .error ("Expected mapping at top-level in " ++ path ++ ", got " ++ tyStr v)) := by
  refine ⟨rfl, fun kvs => rfl, ?_⟩
  intro h1 h2
  cases v with
  | ynull => exact absurd rfl h1
  | ydict kvs => exact absurd rfl (h2 kvs)
  | ybool b => rfl
  | yint n => rfl
  | ystr s => rfl
  | ylist xs => rfl

/-- Witness for `load_yaml_cases` at a null document, a one-entry mapping,
and a list document. -/
theorem load_yaml_cases_witness :
    load_yaml "f.yaml" (.parsed .ynull) = .ok [] ∧
    load_yaml "f.yaml" (.parsed (.ydict [(.ystr "a", .yint 1)])) = .ok [(.ystr "a", .yint 1)] ∧
    load_yaml "f.yaml" (.parsed (.ylist []))
      = .error ("Expected mapping at top-level in " ++ "f.yaml" ++ ", got " ++ tyStr (.ylist [])) :=
  ⟨(load_yaml_cases "f.yaml" (.ylist [])).1,
   (load_yaml_cases "f.yaml" (.ylist [])).2.1 [(.ystr "a", .yint 1)],
   (load_yaml_cases "f.yaml" (.ylist [])).2.2 (fun h => nomatch h) (fun _ h => nomatch h)⟩

lemma mainFn_ok_eq_zero (root : String) (fs : Files) (n : Nat)
    (h : mainFn root fs = .ok n) : n = 0 := by
  unfold mainFn at h
  simp only [bind, Except.bind, pure, Except.pure] at h
  repeat' split at h
  all_goals first | (cases h; rfl) | cases h

/-- C7: a run on which every check passes exits 0 with the single success
line on stdout and nothing on stderr; a run on which any check fails exits 1
with nothing on stdout and the single `ERROR:` line on stderr; no other exit
code occurs, and exit 0 coincides exactly with the success output. -/
theorem exit_behavior (root : String) (fs : Files) :
    (∀ n, mainFn root fs = .ok n →
      program root fs = ⟨0, ["OK: lite configs look valid"], []⟩) ∧
    (∀ e, mainFn root fs = .error e →
      program root fs = ⟨1, [], ["ERROR: " ++ e]⟩) ∧
    ((program root fs).exitCode = 0 ∨ (program root fs).exitCode = 1) ∧
    ((program root fs).exitCode = 0 ↔
      (program root fs).stdout = ["OK: lite configs look valid"] ∧
      (program root fs).stderr = []) := by
  refine ⟨?_, ?_, ?_, ?_⟩
  · intro n h
    unfold program
    rw [h, mainFn_ok_eq_zero root fs n h]
  · intro e h
    unfold program
    rw [h]
  · unfold program
    cases h : mainFn root fs with
    | ok n => exact .inl (mainFn_ok_eq_zero root fs n h)
    | error e => exact .inr rfl
  · unfold program
    cases h : mainFn root fs with
    | ok n =>
      have h0 := mainFn_ok_eq_zero root fs n h
      subst h0
      simp
    | error e => simp

/-- Witness for `exit_behavior`: a fully valid file set and one with the
task-assembly file missing. -/
theorem exit_behavior_witness :
    program "." fsOKw = ⟨0, ["OK: lite configs look valid"], []⟩ ∧
    program "." fsFailw
      = ⟨1, [], ["ERROR: " ++ ("Missing required file: " ++ assemblyPath ".")]⟩ :=
  ⟨(exit_behavior "." fsOKw).1 0 rfl,
   (exit_behavior "." fsFailw).2.1 ("Missing required file: " ++ assemblyPath ".") rfl⟩

/-- C10 counterexample: a start mapping with the two unresolvable keys `1`
(an integer) and `"z"` (a string) makes the run fail with Python's
`TypeError` message from sorting, not with an unknown-reference report, so
validation can raise a type error on non-string keys. -/
theorem nonstring_key_typeerror_counterexample :
    mainFn "." fsC10 = .error (cmpErrMsg (.ystr "z") (.yint 1)) ∧
    cmpErrMsg (.ystr "z") (.yint 1) ≠ startUnknownMsg [.yint 1, .ystr "z"] := by
  refine ⟨rfl, ?_⟩
  decide

/-- C10 (amended): base-identifier extraction coerces any value to its
string form before splitting, so an assignment task reference of any type
is resolved against the Known Task Set by its string form and never raises,
and so is a lone non-string start key; only sorting two or more mutually
incomparable unresolvable start keys can raise a type error. -/
theorem nonstring_refs_resolved_by_str (tn : List String) (v : YVal) :
    (checkAssignments tn [(.ystr "assignments", .ylist [.ydict [(.ystr "task", .ylist [v])]])]
      = if tn.contains (baseOf v) then .ok () else .error (assignUnknownMsg [v])) ∧
    (checkStart tn [(.ystr "start", .ydict [(v, .ynull)])]
      = if tn.contains (baseOf v) then .ok () else .error (startUnknownMsg [v])) := by
  constructor
  · have hloop := checkAssignments_loop tn
      [(.ystr "assignments", .ylist [.ydict [(.ystr "task", .ylist [v])]])]
      [.ydict [(.ystr "task", .ylist [v])]] rfl (by simp)
    rw [hloop]
    have hstep : assignLoop tn [.ydict [(.ystr "task", .ylist [v])]] []
        = .ok ([v].filter (unresolvedIn tn)) := rfl
    rw [hstep]
    by_cases hm : baseOf v ∈ tn <;> simp [List.filter, unresolvedIn, hm]
  · unfold checkStart
    have hget : (kvLookup "start" [(.ystr "start", .ydict [(v, .ynull)])]).getD (.ydict [])
        = .ydict [(v, .ynull)] := rfl
    rw [hget]
    by_cases hm : baseOf v ∈ tn <;>
      simp [List.filter, unresolvedIn, hm, pySorted, pySortedAux, pyInsert]

end LiteValidate
